import Mathlib

/-!
Verification development for the crmpro repository (a TypeScript CRM).

We shallowly embed the server-side logic relevant to the specified claims:

* `computeEffectiveRole` (src/server/_core/rbac.ts) and `getEffectiveRole` /
  `validateCustomRole` (src/server/_core/security-helpers.ts);
* `sanitizeAppSettings` (src/server/_core/security-helpers.ts);
* the `connection.update` close handler of `BaileysService.initializeSession`
  (src/server/services/baileys.ts);
* `MessageHandler.handleIncomingMessage` (message handler with pipeline-stage
  assignment, src/unnamed/part_008 lines 181-309);
* `leads.create` (src/server/routers/leads.ts);
* `campaigns.launch` (src/unnamed/part_008 lines 1688-1753);
* `getOrCreateAppSettings` / `updateAppSettings` (src/unnamed/part_008
  lines 52-74).

Database tables are embedded as Lean lists of records; SQL `select ... limit 1`
becomes `List.find?`, inserts append rows, and `update ... where` maps over the
list.  Timestamp columns (createdAt, lastContactedAt, lastMessageAt, ...) are
not modelled: no claim mentions them and they carry no logical content here.
JavaScript truthiness of strings/numbers is modelled explicitly (`""` and `0`
are falsy).
-/

/-- JavaScript `a || b` for an optional string: `null`/`undefined`/`""` fall
through to the default. -/
def jsOrStr (a : Option String) (b : String) : String :=
  match a with
  | some s => if s = "" then b else s
  | none => b

/-- Substring search on character lists. -/
def charsContains (pat : List Char) : List Char → Bool
  | [] => pat.isEmpty
  | c :: t => pat.isPrefixOf (c :: t) || charsContains pat t

/-- JavaScript `s.includes(pat)`. -/
def strContains (s pat : String) : Bool :=
  charsContains pat.data s.data

/-- JavaScript whitespace characters relevant to `trim()` here. -/
def isWsChar (c : Char) : Bool :=
  c = ' ' || c = '\t' || c = '\n' || c = '\r'

/-- JavaScript `s.trim()`: strip leading and trailing whitespace. -/
def strTrim (s : String) : String :=
  String.mk (((s.data.dropWhile isWsChar).reverse.dropWhile isWsChar).reverse)

/-- ASCII lower-casing of one character, as in `String.prototype.toLowerCase`
restricted to the ASCII range (the only range the compared literals use). -/
def lowerAscii (c : Char) : Char :=
  if 'A' ≤ c ∧ c ≤ 'Z' then Char.ofNat (c.toNat + 32) else c

/-- JavaScript `s.toLowerCase()` on ASCII content. -/
def strToLower (s : String) : String :=
  String.mk (s.data.map lowerAscii)

/-! ## RBAC: computeEffectiveRole (src/server/_core/rbac.ts) -/

/-- `BUILTIN_RANK` from rbac.ts, as a partial map: `none` for a key that is
not a built-in role. -/
def builtinRank (r : String) : Option Nat :=
  if r = "viewer" then some 0
  else if r = "agent" then some 1
  else if r = "supervisor" then some 2
  else if r = "admin" then some 3
  else if r = "owner" then some 4
  else none

/-- A permissions matrix `Record<string, string[]>` as an association list;
key lookup stands for `hasOwnProperty` / index tests on own keys. -/
abbrev PermMatrix : Type := List (String × List String)

/-- `const base = (args.baseRole || "agent").trim()` from rbac.ts. -/
def normBase (baseRole : String) : String :=
  strTrim (if baseRole = "" then "agent" else baseRole)

/-- `computeEffectiveRole` from src/server/_core/rbac.ts lines 11-47. -/
def computeEffectiveRole (baseRole : String) (customRole : Option String)
    (matrix : PermMatrix) : String :=
  let base := normBase baseRole
  if base = "owner" then "owner"
  else
    let custom := strTrim (customRole.getD "")
    if custom = "" then base
    else if (List.lookup custom matrix).isNone then base
    else if custom = "owner" then base
    else
      let baseRank := (builtinRank base).getD 0
      match builtinRank custom with
      | some customRank => if customRank > baseRank then base else custom
      | none => if base ≠ "admin" then base else custom

/-! ## RBAC: getEffectiveRole (src/server/_core/security-helpers.ts) -/

/-- `RESERVED_SYSTEM_ROLES` from security-helpers.ts. -/
def RESERVED_SYSTEM_ROLES : List String :=
  ["owner", "admin", "supervisor", "agent", "viewer"]

/-- `validateCustomRole` from security-helpers.ts lines 51-75, reduced to its
`valid` flag.  A `none`/empty custom role is valid (clears the custom role);
a reserved trimmed name or a name missing from the matrix is invalid. -/
def validateCustomRole (customRole : Option String) (matrix : PermMatrix) :
    Bool :=
  match customRole with
  | none => true
  | some c =>
    if c = "" then true
    else
      let t := strTrim c
      if RESERVED_SYSTEM_ROLES.contains t then false
      else if (List.lookup t matrix).isNone then false
      else true

/-- `getEffectiveRole` from security-helpers.ts lines 81-100. -/
def getEffectiveRole (baseRole : String) (customRole : Option String)
    (matrix : PermMatrix) : String :=
  if baseRole = "owner" then "owner"
  else
    match customRole with
    | none => baseRole
    | some c =>
      if c = "" then baseRole
      else if validateCustomRole (some c) matrix then c
      else baseRole

/-! ## sanitizeAppSettings (src/server/_core/security-helpers.ts lines 10-40)

The settings object is an open JS object; we model the four config sub-objects
the function touches with their secret field, the flag the function may add,
and a `rest` payload (all other own properties, carried through unchanged),
and the remaining top-level fields as an opaque `other` payload. -/

structure SmtpConfig where
  pass : Option String
  hasPassword : Bool
  rest : List (String × String)
deriving Repr, DecidableEq

structure AiConfig where
  apiKey : Option String
  hasApiKey : Bool
  rest : List (String × String)
deriving Repr, DecidableEq

structure MapsConfig where
  apiKey : Option String
  hasApiKey : Bool
  rest : List (String × String)
deriving Repr, DecidableEq

structure StorageConfig where
  secretKey : Option String
  hasSecretKey : Bool
  rest : List (String × String)
deriving Repr, DecidableEq

structure AppSettingsObj where
  smtpConfig : Option SmtpConfig
  aiConfig : Option AiConfig
  mapsConfig : Option MapsConfig
  storageConfig : Option StorageConfig
  other : List (String × String)
deriving Repr, DecidableEq

/-- JS truthiness of an optional string: truthy iff present and nonempty. -/
def truthyStr (s : Option String) : Bool :=
  match s with
  | some v => v ≠ ""
  | none => false

/-- The `// SMTP: Remove password, indicate it exists` block of
`sanitizeAppSettings`. -/
def sanitizeSmtpStep (s : AppSettingsObj) : AppSettingsObj :=
  match s.smtpConfig with
  | some c =>
    if truthyStr c.pass then
      let c2 : SmtpConfig := { c with pass := none, hasPassword := true }
      { s with smtpConfig := some c2 }
    else s
  | none => s

/-- The `// AI: Remove API key, indicate it exists` block. -/
def sanitizeAiStep (s : AppSettingsObj) : AppSettingsObj :=
  match s.aiConfig with
  | some c =>
    if truthyStr c.apiKey then
      let c2 : AiConfig := { c with apiKey := none, hasApiKey := true }
      { s with aiConfig := some c2 }
    else s
  | none => s

/-- The `// Maps: Remove API key, indicate it exists` block. -/
def sanitizeMapsStep (s : AppSettingsObj) : AppSettingsObj :=
  match s.mapsConfig with
  | some c =>
    if truthyStr c.apiKey then
      let c2 : MapsConfig := { c with apiKey := none, hasApiKey := true }
      { s with mapsConfig := some c2 }
    else s
  | none => s

/-- The `// Storage: Remove secret key, indicate it exists` block. -/
def sanitizeStorageStep (s : AppSettingsObj) : AppSettingsObj :=
  match s.storageConfig with
  | some c =>
    if truthyStr c.secretKey then
      let c2 : StorageConfig :=
        { c with secretKey := none, hasSecretKey := true }
      { s with storageConfig := some c2 }
    else s
  | none => s

/-- `sanitizeAppSettings` from security-helpers.ts lines 10-40: the four
masking blocks applied in source order.  `none` input stands for
`null`/`undefined` (the function returns `null`). -/
def sanitizeAppSettings (settings : Option AppSettingsObj) :
    Option AppSettingsObj :=
  match settings with
  | none => none
  | some s =>
    some (sanitizeStorageStep (sanitizeMapsStep (sanitizeAiStep
      (sanitizeSmtpStep s))))

/-! ## Baileys connection-close handling (src/server/services/baileys.ts
lines 48-75)

On `connection === 'close'` the handler computes
`shouldReconnect = statusCode !== DisconnectReason.loggedOut`, marks the
session `'disconnected'`, and then either calls `initializeSession` again
(reconnect) or deletes the on-disk session directory (logged out). -/

/-- `DisconnectReason.loggedOut` from @whiskeysockets/baileys (HTTP 401). -/
def DisconnectReason_loggedOut : Nat := 401

inductive CloseAction where
  | reconnect
  | clearSession
deriving Repr, DecidableEq

/-- The `connection === 'close'` branch of the `connection.update` handler in
`BaileysService.initializeSession`: the recorded status and the action taken.
`statusCode` is `(lastDisconnect?.error as Boom)?.output?.statusCode`, with
`none` for `undefined` (and `undefined !== loggedOut` is true in JS). -/
def onConnectionClose (statusCode : Option Nat) : String × CloseAction :=
  let shouldReconnect := statusCode ≠ some DisconnectReason_loggedOut
  ("disconnected", if shouldReconnect then .reconnect else .clearSession)

/-! ## Relational state

The drizzle tables used by the claims, as lists of rows.  `nextLeadId`,
`nextConvId` and `nextMsgId` model the MySQL AUTO_INCREMENT counters
(`$returningId()` / `insertId`). -/

structure Lead where
  id : Nat
  name : String
  phone : String
  country : String
  pipelineStageId : Option Nat
  kanbanOrder : Nat
  source : Option String
  whatsappNumberId : Option Nat
  assignedToId : Option Nat
  email : Option String
  notes : Option String
  value : Option String
  commission : Option String
deriving Repr, DecidableEq

structure Pipeline where
  id : Nat
  isDefault : Bool
deriving Repr, DecidableEq

structure PipelineStage where
  id : Nat
  pipelineId : Nat
  stageOrder : Nat
deriving Repr, DecidableEq

structure Conversation where
  id : Nat
  channel : String
  whatsappNumberId : Option Nat
  leadId : Option Nat
  contactPhone : String
  contactName : String
  unreadCount : Nat
  status : String
deriving Repr, DecidableEq

structure ChatMessage where
  id : Nat
  conversationId : Nat
  whatsappNumberId : Option Nat
  direction : String
  messageType : String
  content : String
  whatsappMessageId : Option String
  status : String
deriving Repr, DecidableEq

structure Campaign where
  id : Nat
  name : String
  status : String
  totalRecipients : Nat
  audiencePipelineStageId : Option Nat
deriving Repr, DecidableEq

structure CampaignRecipient where
  campaignId : Nat
  leadId : Nat
  status : String
deriving Repr, DecidableEq

structure Db where
  leads : List Lead
  pipelines : List Pipeline
  pipelineStages : List PipelineStage
  conversations : List Conversation
  chatMessages : List ChatMessage
  whatsappNumbers : List Nat
  campaigns : List Campaign
  campaignRecipients : List CampaignRecipient
  nextLeadId : Nat
  nextConvId : Nat
  nextMsgId : Nat
deriving Repr, DecidableEq

/-- `select().from(leads).where(eq(leads.phone, p)).limit(1)`. -/
def findLeadByPhone (db : Db) (p : String) : Option Lead :=
  db.leads.find? (fun l => l.phone == p)

/-- `select().from(conversations).where(and(eq(leadId,..), eq(whatsappNumberId,..),
eq(channel,'whatsapp'))).limit(1)`. -/
def findConv (db : Db) (leadId userId : Nat) : Option Conversation :=
  db.conversations.find? (fun c =>
    c.leadId == some leadId && c.whatsappNumberId == some userId &&
    c.channel == "whatsapp")

/-- The row transformer of
`update conversations set unreadCount = unreadCount + 1 ... where id = cid`:
bump the matching row, leave the rest alone. -/
def bumpUnread (cid : Nat) (x : Conversation) : Conversation :=
  if x.id == cid then { x with unreadCount := x.unreadCount + 1 } else x

/-- The unread counter of the conversation row with the given id (first match),
`0` when no such row exists. -/
def unreadOf (db : Db) (convId : Nat) : Nat :=
  match db.conversations.find? (fun c => c.id == convId) with
  | some c => c.unreadCount
  | none => 0

/-- `select().from(pipelineStages).where(eq(pipelineId, pid))
.orderBy(asc(order)).limit(1)`: the first row of minimal `order`. -/
def firstStageOfPipeline (db : Db) (pid : Nat) : Option PipelineStage :=
  (db.pipelineStages.filter (fun s => s.pipelineId == pid)).foldl
    (fun acc s =>
      match acc with
      | none => some s
      | some t => if s.stageOrder < t.stageOrder then some s else acc)
    none

/-- The id of the first stage of the default pipeline, when a default pipeline
with at least one stage exists. -/
def defaultPipelineFirstStage (db : Db) : Option Nat :=
  match db.pipelines.find? (fun p => p.isDefault) with
  | none => none
  | some p =>
    match firstStageOfPipeline db p.id with
    | none => none
    | some s => some s.id

/-- `select({ max: max(leads.kanbanOrder) }).from(leads)
.where(eq(pipelineStageId, stageId))`, with SQL `MAX` of an empty set (NULL)
coalesced to `0` by the `?? 0` in the source. -/
def maxKanbanInStage (db : Db) (stageId : Nat) : Nat :=
  (db.leads.filter (fun l => l.pipelineStageId == some stageId)).foldl
    (fun m l => max m l.kanbanOrder) 0

/-! ## MessageHandler.handleIncomingMessage
(src/unnamed/part_008 lines 181-309, the message handler that assigns the
default pipeline stage). -/

structure WAKey where
  remoteJid : Option String
  fromMe : Bool
  id : Option String
deriving Repr, DecidableEq

structure WAMessage where
  key : WAKey
  pushName : Option String
  conversationText : Option String
  extendedText : Option String
  imageCaption : Option String
deriving Repr, DecidableEq

/-- The guard at the top of `handleIncomingMessage`: a message is processed
only when the JID is truthy, names neither a group (`@g.us`) nor a status
broadcast, and the message is not from the session owner. -/
def acceptsMessage (m : WAMessage) : Bool :=
  match m.key.remoteJid with
  | none => false
  | some jid =>
    jid ≠ "" && !(strContains jid "@g.us") &&
    !(strContains jid "status@broadcast") && !m.key.fromMe

/-- `'+' + jid.split('@')[0]`. -/
def charsUpTo (stop : Char) : List Char → List Char
  | [] => []
  | c :: t => if c = stop then [] else c :: charsUpTo stop t

def phoneOfJid (jid : String) : String :=
  String.mk ('+' :: charsUpTo '@' jid.data)

/-- The phone number the handler derives from an accepted message. -/
def phoneOfMessage (m : WAMessage) : String :=
  phoneOfJid ((m.key.remoteJid).getD "")

/-- The text the handler extracts:
`conversation || extendedTextMessage?.text || imageMessage?.caption ||
"Media Message"`. -/
def textOfMessage (m : WAMessage) : String :=
  jsOrStr m.conversationText
    (jsOrStr m.extendedText (jsOrStr m.imageCaption "Media Message"))

/-- The lead row inserted by the handler for a new phone: default pipeline
first stage and next kanban order when that stage exists. -/
def inboundNewLead (db : Db) (contactName phoneNumber : String) : Lead :=
  { id := db.nextLeadId, name := contactName, phone := phoneNumber,
    country := "Unknown",
    pipelineStageId := defaultPipelineFirstStage db,
    kanbanOrder := match defaultPipelineFirstStage db with
      | some sid => maxKanbanInStage db sid + 1
      | none => 0,
    source := some "whatsapp_inbound", whatsappNumberId := none,
    assignedToId := none, email := none, notes := none, value := none,
    commission := none }

/-- The conversation row inserted by the handler when no conversation matches
the (lead, channel-identity) pair. -/
def inboundNewConv (db1 : Db) (userId leadId : Nat)
    (phoneNumber contactName : String) : Conversation :=
  { id := db1.nextConvId, channel := "whatsapp",
    whatsappNumberId := some userId, leadId := some leadId,
    contactPhone := phoneNumber, contactName := contactName,
    unreadCount := 1, status := "active" }

/-- The chat-message row appended by the handler. -/
def inboundNewMessage (db2 : Db) (userId convId : Nat) (m : WAMessage) :
    ChatMessage :=
  { id := db2.nextMsgId, conversationId := convId,
    whatsappNumberId := some userId, direction := "inbound",
    messageType := "text", content := textOfMessage m,
    whatsappMessageId := m.key.id, status := "delivered" }

/-- `MessageHandler.handleIncomingMessage` (part_008 lines 181-309) as a state
transformer.  `userId` is the session's WhatsApp-number id.  A rejected
message (group/status/self/absent JID) leaves the state unchanged; the
`lastContactedAt` / `lastMessageAt` timestamp writes of the source are not
modelled. -/
def handleIncomingMessage (userId : Nat) (m : WAMessage) (db : Db) : Db :=
  if !(acceptsMessage m) then db
  else
    let phoneNumber := phoneOfMessage m
    let contactName := jsOrStr m.pushName "Unknown"
    -- 1. Find or Create Lead
    let step1 : Nat × Db :=
      match findLeadByPhone db phoneNumber with
      | some l => (l.id, db)
      | none =>
        (db.nextLeadId,
         { db with
             leads := db.leads ++ [inboundNewLead db contactName phoneNumber],
             nextLeadId := db.nextLeadId + 1 })
    let leadId := step1.1
    let db1 := step1.2
    -- 2. Find or Create Conversation
    let step2 : Nat × Db :=
      match findConv db1 leadId userId with
      | some c =>
        (c.id,
         { db1 with conversations := db1.conversations.map (bumpUnread c.id) })
      | none =>
        (db1.nextConvId,
         { db1 with
             conversations := db1.conversations ++
               [inboundNewConv db1 userId leadId phoneNumber contactName],
             nextConvId := db1.nextConvId + 1 })
    let conversationId := step2.1
    let db2 := step2.2
    -- 3. Insert Chat Message
    { db2 with
        chatMessages := db2.chatMessages ++
          [inboundNewMessage db2 userId conversationId m],
        nextMsgId := db2.nextMsgId + 1 }

/-! ## leads.create (src/server/routers/leads.ts lines 67-138) -/

structure LeadInput where
  name : String
  phone : String
  email : Option String
  country : String
  source : Option String
  notes : Option String
  pipelineStageId : Option Nat
  value : Option Nat
deriving Repr, DecidableEq

structure CreateLeadResult where
  id : Nat
  success : Bool
  existed : Bool
deriving Repr, DecidableEq

/-- `input.country.toLowerCase() === 'panamá' || ... === 'panama'`; the commission
written into the new row. -/
def commissionFor (country : String) : String :=
  if strToLower country = "panamá" ∨ strToLower country = "panama" then
    "10000.00"
  else "5000.00"

/-- `leads.create` from src/server/routers/leads.ts lines 79-138 as a state
transformer returning the mutation's response.  JS numeric truthiness matters
twice: `if (!stageId)` and `if (stageId)` treat a stage id of `0` as absent.
The fire-and-forget `dispatchIntegrationEvent` webhook is external output and
is not modelled. -/
def leadsCreate (input : LeadInput) (ctxUserId : Option Nat) (db : Db) :
    Db × CreateLeadResult :=
  match findLeadByPhone db input.phone with
  | some l => (db, { id := l.id, success := true, existed := true })
  | none =>
    let stageId0 := input.pipelineStageId
    let stageId :=
      if stageId0 = none ∨ stageId0 = some 0 then defaultPipelineFirstStage db
      else stageId0
    let nextOrder :=
      match stageId with
      | some sid => if sid = 0 then 0 else maxKanbanInStage db sid + 1
      | none => 0
    let defaultWhatsappNumberId := db.whatsappNumbers.head?
    let newLead : Lead :=
      { id := db.nextLeadId, name := input.name, phone := input.phone,
        country := input.country, pipelineStageId := stageId,
        kanbanOrder := nextOrder, source := input.source,
        whatsappNumberId := defaultWhatsappNumberId,
        assignedToId := ctxUserId, email := input.email, notes := input.notes,
        value := some (match input.value with
          | some v => toString v
          | none => "0.00"),
        commission := some (commissionFor input.country) }
    ({ db with leads := db.leads ++ [newLead],
               nextLeadId := db.nextLeadId + 1 },
     { id := db.nextLeadId, success := true, existed := false })

/-- A sequence of `leads.create` calls, each with its own input and caller. -/
def runCreates (reqs : List (LeadInput × Option Nat)) (db : Db) : Db :=
  reqs.foldl (fun d r => (leadsCreate r.1 r.2 d).1) db

/-! ## campaigns.launch (src/unnamed/part_008 lines 1688-1753)

Inserting into `campaign_recipients` is subject to the unique key
`uq_campaign_lead (campaignId, leadId)` (src/unnamed/part_012): an insert of
an already-present pair raises `ER_DUP_ENTRY`.  Other per-insert failures
(connection drops, etc.) are modelled by an error oracle `errOracle` giving,
per lead id, an error message thrown by that lead's insert attempt instead of
the insert happening.  The source catches an insert error and continues iff
`err.code === 'ER_DUP_ENTRY' || err.message?.includes('Duplicate')`. -/

structure LaunchResult where
  success : Bool
  recipientsCount : Nat
  alreadyLaunched : Bool
  inserted : Option Nat
deriving Repr, DecidableEq

/-- An error that the recipient loop's catch block swallows. -/
def isDupError (e : String) : Bool :=
  e == "ER_DUP_ENTRY" || strContains e "Duplicate"

/-- The audience query of `campaigns.launch`: all leads, filtered by
`audienceConfig.pipelineStageId` when that is truthy. -/
def audienceOf (db : Db) (camp : Campaign) : List Lead :=
  match camp.audiencePipelineStageId with
  | some sid => if sid = 0 then db.leads
      else db.leads.filter (fun l => l.pipelineStageId == some sid)
  | none => db.leads

/-- The recipient loop of `campaigns.launch`: walks the audience in order,
inserting a `pending` recipient per lead, counting successful inserts,
skipping duplicate-entry errors and rethrowing anything else (leaving the
rows already inserted in place). -/
def insertRecipients (cid : Nat) (errOracle : Nat → Option String) :
    List Lead → Nat → Db → Except String Nat × Db
  | [], acc, db => (Except.ok acc, db)
  | l :: rest, acc, db =>
    match errOracle l.id with
    | some e =>
      if isDupError e then insertRecipients cid errOracle rest acc db
      else (Except.error e, db)
    | none =>
      if db.campaignRecipients.any (fun r =>
          r.campaignId == cid && r.leadId == l.id) then
        -- unique key uq_campaign_lead fires: ER_DUP_ENTRY, caught and skipped
        insertRecipients cid errOracle rest acc db
      else
        let row : CampaignRecipient :=
          { campaignId := cid, leadId := l.id, status := "pending" }
        insertRecipients cid errOracle rest (acc + 1)
          { db with campaignRecipients := db.campaignRecipients ++ [row] }

/-- `campaigns.launch` (part_008 lines 1688-1753) as a state transformer.
A thrown error is `Except.error`; the state is threaded through even on error
because the SQL effects already performed persist. -/
def campaignsLaunch (campaignId : Nat) (errOracle : Nat → Option String)
    (db : Db) : Except String LaunchResult × Db :=
  match db.campaigns.find? (fun c => c.id == campaignId) with
  | none => (Except.error "Campaign not found", db)
  | some camp =>
    if camp.status = "scheduled" ∨ camp.status = "running" then
      (Except.ok { success := true, recipientsCount := camp.totalRecipients,
                   alreadyLaunched := true, inserted := none }, db)
    else if camp.status ≠ "draft" then
      (Except.error ("Cannot launch campaign with status: " ++ camp.status),
       db)
    else
      let audience := audienceOf db camp
      if audience.isEmpty then
        (Except.error "No recipients found for campaign", db)
      else
        match insertRecipients campaignId errOracle audience 0 db with
        | (Except.error e, db1) => (Except.error e, db1)
        | (Except.ok insertedCount, db1) =>
          let db2 :=
            { db1 with campaigns := db1.campaigns.map (fun c =>
                if c.id == campaignId then
                  { c with status := "scheduled",
                           totalRecipients := audience.length }
                else c) }
          (Except.ok { success := true, recipientsCount := audience.length,
                       alreadyLaunched := false,
                       inserted := some insertedCount }, db2)

/-- The status of the campaign row with the given id. -/
def campaignStatus (db : Db) (cid : Nat) : Option String :=
  (db.campaigns.find? (fun c => c.id == cid)).map (fun c => c.status)

/-! ## App-settings singleton (src/unnamed/part_008 lines 52-74)

`app_settings` rows: an id (AUTO_INCREMENT) plus the JSON payload, which we
leave abstract (`SettingsData`); `updateAppSettings` patches only payload
columns, so a patch is a payload transformer. -/

structure SettingsRow where
  id : Nat
  companyName : String
  payload : List (String × String)
deriving Repr, DecidableEq

structure SettingsDb where
  rows : List SettingsRow
  nextId : Nat
deriving Repr, DecidableEq

/-- `select().from(appSettings).orderBy(desc(appSettings.id)).limit(1)`:
the row of maximal id. -/
def latestSettingsRow (rows : List SettingsRow) : Option SettingsRow :=
  rows.foldl
    (fun acc r =>
      match acc with
      | none => some r
      | some t => if r.id > t.id then some r else acc)
    none

/-- The default payload inserted by `getOrCreateAppSettings`. -/
def defaultSettingsRow (id : Nat) : SettingsRow :=
  { id := id, companyName := "Imagine Lab CRM",
    payload := [("timezone", "America/Asuncion"), ("language", "es"),
                ("currency", "PYG")] }

/-- `getOrCreateAppSettings` (part_008 lines 52-67): return the latest row if
one exists, otherwise insert the default row and return the new latest row. -/
def getOrCreateAppSettings (db : SettingsDb) : SettingsDb × Option SettingsRow :=
  match latestSettingsRow db.rows with
  | some r => (db, some r)
  | none =>
    let db1 : SettingsDb :=
      { rows := db.rows ++ [defaultSettingsRow db.nextId],
        nextId := db.nextId + 1 }
    (db1, latestSettingsRow db1.rows)

/-- A patch of payload columns (`db.update(appSettings).set(patch)`): the id
column is not part of the patch. -/
def SettingsPatch : Type := SettingsRow → SettingsRow

/-- Apply a patch to the row's non-id columns only. -/
def applyPatch (p : SettingsPatch) (r : SettingsRow) : SettingsRow :=
  { p r with id := r.id }

/-- `updateAppSettings` (part_008 lines 69-74): get-or-create, then update the
row with that id in place and return the fresh row. -/
def updateAppSettings (db : SettingsDb) (p : SettingsPatch) :
    SettingsDb × Option SettingsRow :=
  match getOrCreateAppSettings db with
  | (db1, none) => (db1, none)
  | (db1, some row) =>
    let rows2 := db1.rows.map (fun r =>
      if r.id == row.id then applyPatch p r else r)
    let db2 : SettingsDb := { db1 with rows := rows2 }
    (db2, rows2.find? (fun r => r.id == row.id))

/-- An operation on the app-settings store. -/
inductive SettingsOp where
  | getOrCreate
  | update (p : SettingsPatch)

/-- Run a sequence of app-settings operations. -/
def runSettingsOps (ops : List SettingsOp) (db : SettingsDb) : SettingsDb :=
  ops.foldl
    (fun d op =>
      match op with
      | SettingsOp.getOrCreate => (getOrCreateAppSettings d).1
      | SettingsOp.update p => (updateAppSettings d p).1)
    db

/-! ## Theorems -/

/-- C4 counterexample: the close handler does not reconnect unconditionally.
At disconnect reason `loggedOut` (401) the reconnection is skipped and the
session directory is cleared instead. -/
theorem baileys_reconnect_unconditional_cex :
    (onConnectionClose (some DisconnectReason_loggedOut)).2 =
      CloseAction.clearSession ∧
    (onConnectionClose (some DisconnectReason_loggedOut)).2 ≠
      CloseAction.reconnect := by
  constructor
  · rfl
  · decide

/-- C4 (amended): on a connection-close event the service re-initializes the
session immediately (no backoff, no guard) for every disconnect status code
other than `DisconnectReason.loggedOut`; when the status code is `loggedOut`
it skips reconnection and clears the stored session instead. -/
theorem baileys_close_reconnects_unless_logged_out
    (statusCode : Option Nat)
    (h : statusCode ≠ some DisconnectReason_loggedOut) :
    onConnectionClose statusCode = ("disconnected", CloseAction.reconnect) ∧
    onConnectionClose (some DisconnectReason_loggedOut) =
      ("disconnected", CloseAction.clearSession) := by
  constructor
  · simp [onConnectionClose, h]
  · rfl

/-- Witness for `baileys_close_reconnects_unless_logged_out` at status
code 500 (`badSession`). -/
theorem baileys_close_reconnects_unless_logged_out_witness :
    onConnectionClose (some 500) = ("disconnected", CloseAction.reconnect) ∧
    onConnectionClose (some DisconnectReason_loggedOut) =
      ("disconnected", CloseAction.clearSession) :=
  baileys_close_reconnects_unless_logged_out (some 500) (by decide)
/-- Case analysis of `computeEffectiveRole`: the result is `"owner"` for an
owner base, or the (normalized) base role, or the trimmed custom role, and in
the last case the custom role is a matrix key other than `"owner"` that is
either a built-in of rank at most the base's or a non-built-in with an admin
base. -/
theorem computeEffectiveRole_spec (b : String) (c : Option String)
    (m : PermMatrix) :
    (normBase b = "owner" ∧ computeEffectiveRole b c m = "owner") ∨
    computeEffectiveRole b c m = normBase b ∨
    (computeEffectiveRole b c m = strTrim (c.getD "") ∧
     normBase b ≠ "owner" ∧
     (List.lookup (strTrim (c.getD "")) m).isSome = true ∧
     strTrim (c.getD "") ≠ "owner" ∧
     ((∃ rc, builtinRank (strTrim (c.getD "")) = some rc ∧
        rc ≤ (builtinRank (normBase b)).getD 0) ∨
      (builtinRank (strTrim (c.getD "")) = none ∧ normBase b = "admin"))) := by
  unfold computeEffectiveRole
  by_cases hb : normBase b = "owner"
  · exact Or.inl ⟨hb, by simp [hb]⟩
  · right
    by_cases h1 : strTrim (c.getD "") = ""
    · left; simp [hb, h1]
    · by_cases h2 : (List.lookup (strTrim (c.getD "")) m).isNone = true
      · left; simp [hb, h1, h2]
      · have hsome : (List.lookup (strTrim (c.getD "")) m).isSome = true := by
          rcases hlk : List.lookup (strTrim (c.getD "")) m with _ | v
          · exact absurd (by simp [hlk]) h2
          · simp
        by_cases h3 : strTrim (c.getD "") = "owner"
        · left; simp [hb, h1, h2, h3]
        · rcases hbr : builtinRank (strTrim (c.getD "")) with _ | rc
          · by_cases h4 : normBase b = "admin"
            · right
              exact ⟨by simp [hb, h1, h2, h3, hbr, h4], hb, hsome, h3,
                Or.inr ⟨rfl, h4⟩⟩
            · left; simp [hb, h1, h2, h3, hbr, h4]
          · by_cases h5 : rc > (builtinRank (normBase b)).getD 0
            · left; simp [hb, h1, h2, h3, hbr, h5]
            · right
              exact ⟨by simp [hb, h1, h2, h3, hbr, h5], hb, hsome, h3,
                Or.inl ⟨rc, rfl, by omega⟩⟩

/-- Case analysis of `getEffectiveRole`: the result is the base role, or
`"owner"` for an owner base, or the raw custom role, which then is nonempty,
trims to a non-reserved name, and is a matrix key. -/
theorem getEffectiveRole_spec (b : String) (c : Option String)
    (m : PermMatrix) :
    getEffectiveRole b c m = b ∨
    (b = "owner" ∧ getEffectiveRole b c m = "owner") ∨
    (∃ s, c = some s ∧ getEffectiveRole b c m = s ∧ s ≠ "" ∧
      strTrim s ∉ RESERVED_SYSTEM_ROLES ∧
      (∃ v : List String, (strTrim s, v) ∈ m)) := by
  unfold getEffectiveRole
  by_cases hb : b = "owner"
  · exact Or.inr (Or.inl ⟨hb, by simp [hb]⟩)
  · rcases c with _ | s
    · simp [hb]
    · by_cases h1 : s = ""
      · simp [hb, h1]
      · by_cases h2 : validateCustomRole (some s) m = true
        · have h2' := h2
          simp [validateCustomRole, h1] at h2'
          exact Or.inr (Or.inr ⟨s, rfl, by simp [hb, h1, h2], h1, h2'.1, h2'.2⟩)
        · simp [hb, h1, h2]

/-- C9: role resolution never escalates privilege.  `computeEffectiveRole`
returns `"owner"` iff the (normalized) base role is `"owner"`; a custom role
that is a built-in of strictly higher rank, or that is absent from the
permissions matrix, leaves the base role in force; a non-built-in custom role
is returned (when distinct from the base) only for an `"admin"` base.
`getEffectiveRole` returns `"owner"` only for an owner base and falls back to
the base role for any reserved or matrix-unknown custom role. -/
theorem rbac_no_privilege_escalation :
    (∀ b c m, computeEffectiveRole b c m = "owner" ↔ normBase b = "owner") ∧
    (∀ b c m, (List.lookup (strTrim (c.getD "")) m).isNone = true →
      computeEffectiveRole b c m = normBase b) ∧
    (∀ b c m rc, builtinRank (strTrim (c.getD "")) = some rc →
      rc > (builtinRank (normBase b)).getD 0 →
      computeEffectiveRole b c m = normBase b) ∧
    (∀ b c m, builtinRank (strTrim (c.getD "")) = none →
      computeEffectiveRole b c m = strTrim (c.getD "") →
      strTrim (c.getD "") ≠ normBase b →
      normBase b = "admin") ∧
    (∀ b c m, getEffectiveRole b c m = "owner" → b = "owner") ∧
    (∀ b s m, b ≠ "owner" →
      (strTrim s ∈ RESERVED_SYSTEM_ROLES ∨ List.lookup (strTrim s) m = none) →
      getEffectiveRole b (some s) m = b) := by
  refine ⟨?_, ?_, ?_, ?_, ?_, ?_⟩
  · intro b c m
    constructor
    · intro h
      rcases computeEffectiveRole_spec b c m with ⟨hb, _⟩ | hr | ⟨hr, hb, _, hno, _⟩
      · exact hb
      · rw [h] at hr; exact hr.symm
      · rw [h] at hr; exact absurd hr.symm hno
    · intro hb
      unfold computeEffectiveRole
      simp [hb]
  · intro b c m hnone
    rcases computeEffectiveRole_spec b c m with ⟨hb, hr⟩ | hr | ⟨_, _, hsome, _, _⟩
    · rw [hr, hb]
    · exact hr
    · rw [Option.isNone_iff_eq_none] at hnone
      rw [hnone] at hsome
      simp at hsome
  · intro b c m rc hrank hgt
    rcases computeEffectiveRole_spec b c m with ⟨hb, hr⟩ | hr | ⟨_, _, _, _, hlast⟩
    · rw [hr, hb]
    · exact hr
    · rcases hlast with ⟨rc2, hrc2, hle⟩ | ⟨hnone, _⟩
      · rw [hrank] at hrc2
        injection hrc2 with h
        omega
      · rw [hrank] at hnone
        simp at hnone
  · intro b c m hrank heq hne
    rcases computeEffectiveRole_spec b c m with ⟨hb, hr⟩ | hr | ⟨_, _, _, _, hlast⟩
    · rw [heq] at hr
      rw [hr] at hrank
      simp [builtinRank] at hrank
    · rw [heq] at hr
      exact absurd hr hne
    · rcases hlast with ⟨rc2, hrc2, _⟩ | ⟨_, hadmin⟩
      · rw [hrank] at hrc2
        simp at hrc2
      · exact hadmin
  · intro b c m h
    rcases getEffectiveRole_spec b c m with hr | ⟨hb, _⟩ | ⟨s, _, hr, _, hres, _⟩
    · rw [h] at hr; exact hr.symm
    · exact hb
    · exfalso
      rw [h] at hr
      rw [← hr] at hres
      have : strTrim "owner" ∈ RESERVED_SYSTEM_ROLES := by decide
      exact hres this
  · intro b s m hb hbad
    unfold getEffectiveRole
    simp only [hb, if_false]
    by_cases h1 : s = ""
    · simp [h1]
    · have hval : validateCustomRole (some s) m = false := by
        rcases hbad with hmem | hnone
        · simp [validateCustomRole, h1]
          intro hx
          exact absurd hmem hx
        · rw [List.lookup_eq_none_iff] at hnone
          simp [validateCustomRole, h1]
          intro hnr a v hv heq2
          have := hnone (a, v) hv
          simp [heq2] at this
      simp [h1, hval]

/-- Witness for `rbac_no_privilege_escalation`: a custom role `"admin"` on an
`"agent"` base is blocked (built-in of higher rank), and a custom role
`"owner"` never takes effect for a non-owner base. -/
theorem rbac_no_privilege_escalation_witness :
    computeEffectiveRole "agent" (some "admin") [("admin", ["x"])] =
      normBase "agent" ∧
    getEffectiveRole "agent" (some "owner") [("owner", ["x"])] = "agent" :=
  ⟨rbac_no_privilege_escalation.2.2.1 "agent" (some "admin") [("admin", ["x"])]
      3 (by decide) (by decide),
   rbac_no_privilege_escalation.2.2.2.2.2 "agent" "owner" [("owner", ["x"])]
      (by decide) (Or.inl (by decide))⟩

theorem sanitizeSmtpStep_frame (s : AppSettingsObj) :
    (sanitizeSmtpStep s).aiConfig = s.aiConfig ∧
    (sanitizeSmtpStep s).mapsConfig = s.mapsConfig ∧
    (sanitizeSmtpStep s).storageConfig = s.storageConfig ∧
    (sanitizeSmtpStep s).other = s.other := by
  unfold sanitizeSmtpStep
  rcases h : s.smtpConfig with _ | c <;> simp <;> split_ifs <;> simp

theorem sanitizeAiStep_frame (s : AppSettingsObj) :
    (sanitizeAiStep s).smtpConfig = s.smtpConfig ∧
    (sanitizeAiStep s).mapsConfig = s.mapsConfig ∧
    (sanitizeAiStep s).storageConfig = s.storageConfig ∧
    (sanitizeAiStep s).other = s.other := by
  unfold sanitizeAiStep
  rcases h : s.aiConfig with _ | c <;> simp <;> split_ifs <;> simp

theorem sanitizeMapsStep_frame (s : AppSettingsObj) :
    (sanitizeMapsStep s).smtpConfig = s.smtpConfig ∧
    (sanitizeMapsStep s).aiConfig = s.aiConfig ∧
    (sanitizeMapsStep s).storageConfig = s.storageConfig ∧
    (sanitizeMapsStep s).other = s.other := by
  unfold sanitizeMapsStep
  rcases h : s.mapsConfig with _ | c <;> simp <;> split_ifs <;> simp

theorem sanitizeStorageStep_frame (s : AppSettingsObj) :
    (sanitizeStorageStep s).smtpConfig = s.smtpConfig ∧
    (sanitizeStorageStep s).aiConfig = s.aiConfig ∧
    (sanitizeStorageStep s).mapsConfig = s.mapsConfig ∧
    (sanitizeStorageStep s).other = s.other := by
  unfold sanitizeStorageStep
  rcases h : s.storageConfig with _ | c <;> simp <;> split_ifs <;> simp

theorem sanitizeSmtpStep_effect (s : AppSettingsObj) :
    (match s.smtpConfig with
     | none => (sanitizeSmtpStep s).smtpConfig = none
     | some c =>
       if truthyStr c.pass then
         (sanitizeSmtpStep s).smtpConfig =
           some ({ c with pass := none, hasPassword := true })
       else (sanitizeSmtpStep s).smtpConfig = some c) := by
  unfold sanitizeSmtpStep
  rcases h : s.smtpConfig with _ | c <;> simp [h] <;> split_ifs <;> simp [h]

theorem sanitizeAiStep_effect (s : AppSettingsObj) :
    (match s.aiConfig with
     | none => (sanitizeAiStep s).aiConfig = none
     | some c =>
       if truthyStr c.apiKey then
         (sanitizeAiStep s).aiConfig =
           some ({ c with apiKey := none, hasApiKey := true })
       else (sanitizeAiStep s).aiConfig = some c) := by
  unfold sanitizeAiStep
  rcases h : s.aiConfig with _ | c <;> simp [h] <;> split_ifs <;> simp [h]

theorem sanitizeMapsStep_effect (s : AppSettingsObj) :
    (match s.mapsConfig with
     | none => (sanitizeMapsStep s).mapsConfig = none
     | some c =>
       if truthyStr c.apiKey then
         (sanitizeMapsStep s).mapsConfig =
           some ({ c with apiKey := none, hasApiKey := true })
       else (sanitizeMapsStep s).mapsConfig = some c) := by
  unfold sanitizeMapsStep
  rcases h : s.mapsConfig with _ | c <;> simp [h] <;> split_ifs <;> simp [h]

theorem sanitizeStorageStep_effect (s : AppSettingsObj) :
    (match s.storageConfig with
     | none => (sanitizeStorageStep s).storageConfig = none
     | some c =>
       if truthyStr c.secretKey then
         (sanitizeStorageStep s).storageConfig =
           some ({ c with secretKey := none, hasSecretKey := true })
       else (sanitizeStorageStep s).storageConfig = some c) := by
  unfold sanitizeStorageStep
  rcases h : s.storageConfig with _ | c <;> simp [h] <;> split_ifs <;> simp [h]

/-- C10: `sanitizeAppSettings` strips the secret fields — whenever a secret
is present and truthy, the returned config carries the corresponding
`has…` flag instead of the secret — leaves every other field unchanged, and
maps a null/undefined input to null. -/
theorem sanitize_app_settings_masks_secrets :
    sanitizeAppSettings none = none ∧
    ∀ s : AppSettingsObj, ∃ r : AppSettingsObj,
      sanitizeAppSettings (some s) = some r ∧
      r.other = s.other ∧
      (match s.smtpConfig with
       | none => r.smtpConfig = none
       | some c =>
         if truthyStr c.pass then
           r.smtpConfig = some ({ c with pass := none, hasPassword := true })
         else r.smtpConfig = some c) ∧
      (match s.aiConfig with
       | none => r.aiConfig = none
       | some c =>
         if truthyStr c.apiKey then
           r.aiConfig = some ({ c with apiKey := none, hasApiKey := true })
         else r.aiConfig = some c) ∧
      (match s.mapsConfig with
       | none => r.mapsConfig = none
       | some c =>
         if truthyStr c.apiKey then
           r.mapsConfig = some ({ c with apiKey := none, hasApiKey := true })
         else r.mapsConfig = some c) ∧
      (match s.storageConfig with
       | none => r.storageConfig = none
       | some c =>
         if truthyStr c.secretKey then
           r.storageConfig =
             some ({ c with secretKey := none, hasSecretKey := true })
         else r.storageConfig = some c) := by
  refine ⟨rfl, ?_⟩
  intro s
  refine ⟨sanitizeStorageStep (sanitizeMapsStep (sanitizeAiStep
    (sanitizeSmtpStep s))), rfl, ?_, ?_, ?_, ?_, ?_⟩
  · rw [(sanitizeStorageStep_frame _).2.2.2, (sanitizeMapsStep_frame _).2.2.2,
      (sanitizeAiStep_frame _).2.2.2, (sanitizeSmtpStep_frame _).2.2.2]
  · rw [(sanitizeStorageStep_frame _).1, (sanitizeMapsStep_frame _).1,
      (sanitizeAiStep_frame _).1]
    exact sanitizeSmtpStep_effect s
  · rw [(sanitizeStorageStep_frame _).2.1, (sanitizeMapsStep_frame _).2.1]
    have h := sanitizeAiStep_effect (sanitizeSmtpStep s)
    rw [(sanitizeSmtpStep_frame s).1] at h
    exact h
  · rw [(sanitizeStorageStep_frame _).2.2.1]
    have h := sanitizeMapsStep_effect (sanitizeAiStep (sanitizeSmtpStep s))
    rw [(sanitizeAiStep_frame _).2.1, (sanitizeSmtpStep_frame s).2.1] at h
    exact h
  · have h := sanitizeStorageStep_effect (sanitizeMapsStep (sanitizeAiStep
      (sanitizeSmtpStep s)))
    rw [(sanitizeMapsStep_frame _).2.2.1, (sanitizeAiStep_frame _).2.2.1,
      (sanitizeSmtpStep_frame s).2.2.1] at h
    exact h

theorem latestSettingsRow_none_iff (rows : List SettingsRow) :
    latestSettingsRow rows = none ↔ rows = [] := by
  constructor
  · intro h
    cases rows with
    | nil => rfl
    | cons r t =>
      exfalso
      unfold latestSettingsRow at h
      simp only [List.foldl_cons] at h
      induction t generalizing r with
      | nil => simp at h
      | cons r2 t2 ih =>
        simp only [List.foldl_cons] at h
        by_cases hgt : r2.id > r.id
        · exact ih r2 (by simpa [hgt] using h)
        · exact ih r (by simpa [hgt] using h)
  · intro h
    subst h
    rfl

/-- C8: the app-settings store is a singleton.  `getOrCreateAppSettings` is a
no-op on the store when a row exists; `updateAppSettings` never changes the
number of rows or their ids beyond the initial get-or-create; and any
sequence of these operations starting from an empty store leaves at most one
row. -/
theorem app_settings_singleton :
    (∀ db : SettingsDb, db.rows ≠ [] → (getOrCreateAppSettings db).1 = db) ∧
    (∀ db : SettingsDb, db.rows = [] →
      (getOrCreateAppSettings db).1.rows = [defaultSettingsRow db.nextId]) ∧
    (∀ (db : SettingsDb) (p : SettingsPatch), db.rows ≠ [] →
      ((updateAppSettings db p).1.rows.map (fun r => r.id) =
        db.rows.map (fun r => r.id))) ∧
    (∀ ops : List SettingsOp,
      (runSettingsOps ops { rows := [], nextId := 1 }).rows.length ≤ 1) := by
  have hget : ∀ db : SettingsDb, db.rows ≠ [] → (getOrCreateAppSettings db).1 = db := by
    intro db hne
    unfold getOrCreateAppSettings
    rcases h : latestSettingsRow db.rows with _ | r
    · exact absurd ((latestSettingsRow_none_iff db.rows).mp h) hne
    · rfl
  have hget0 : ∀ db : SettingsDb, db.rows = [] →
      (getOrCreateAppSettings db).1.rows = [defaultSettingsRow db.nextId] := by
    intro db h0
    unfold getOrCreateAppSettings
    rw [(latestSettingsRow_none_iff db.rows).mpr h0]
    simp [h0]
  have hupd : ∀ (db : SettingsDb) (p : SettingsPatch), db.rows ≠ [] →
      ((updateAppSettings db p).1.rows.map (fun r => r.id) =
        db.rows.map (fun r => r.id)) := by
    intro db p hne
    rcases h : latestSettingsRow db.rows with _ | r
    · exact absurd ((latestSettingsRow_none_iff db.rows).mp h) hne
    · have hgc : getOrCreateAppSettings db = (db, some r) := by
        unfold getOrCreateAppSettings
        rw [h]
      unfold updateAppSettings
      rw [hgc]
      dsimp only
      simp only [List.map_map]
      apply List.map_congr_left
      intro a _
      simp only [Function.comp, applyPatch]
      split_ifs <;> rfl
  have hlen : ∀ (db : SettingsDb) (op : SettingsOp), db.rows.length ≤ 1 →
      (match op with
       | SettingsOp.getOrCreate => (getOrCreateAppSettings db).1
       | SettingsOp.update p => (updateAppSettings db p).1).rows.length ≤ 1 := by
    intro db op hle
    have hg : (getOrCreateAppSettings db).1.rows.length ≤ 1 := by
      rcases h0 : db.rows with _ | ⟨r, t⟩
      · rw [hget0 db h0]
        simp
      · rw [hget db (by simp [h0])]
        exact hle
    cases op with
    | getOrCreate => exact hg
    | update p =>
      unfold updateAppSettings
      rcases h : getOrCreateAppSettings db with ⟨db1, row?⟩
      have hdb1 : db1.rows.length ≤ 1 := by
        have h1 : db1 = (getOrCreateAppSettings db).1 := by rw [h]
        rw [h1]
        exact hg
      rcases row? with _ | row
      · exact hdb1
      · simpa using hdb1
  refine ⟨hget, hget0, hupd, ?_⟩
  intro ops
  have : ∀ db : SettingsDb, db.rows.length ≤ 1 →
      (runSettingsOps ops db).rows.length ≤ 1 := by
    induction ops with
    | nil => intro db h; exact h
    | cons op t ih =>
      intro db h
      unfold runSettingsOps
      simp only [List.foldl_cons]
      have hstep := hlen db op h
      cases op with
      | getOrCreate => exact ih _ hstep
      | update p => exact ih _ hstep
  exact this _ (by simp)

/-- Witness for `app_settings_singleton`: a double get-or-create from the
empty store, plus an update, leaves exactly one row. -/
theorem app_settings_singleton_witness :
    (runSettingsOps [SettingsOp.getOrCreate, SettingsOp.getOrCreate,
      SettingsOp.update id] { rows := [], nextId := 1 }).rows.length ≤ 1 :=
  app_settings_singleton.2.2.2
    [SettingsOp.getOrCreate, SettingsOp.getOrCreate, SettingsOp.update id]

/-- The phone-uniqueness invariant backed by the `uq_leads_phone` unique key
(src/unnamed/part_012): no two lead rows share a phone. -/
def AtMostOnePerPhone (db : Db) : Prop :=
  db.leads.Pairwise (fun a b => a.phone ≠ b.phone)

instance : DecidablePred AtMostOnePerPhone := fun db =>
  List.instDecidablePairwise db.leads

/-- C2: when a lead with the input phone already exists, `leads.create`
returns that lead's id with `existed = true` and leaves the database
untouched, and consequently `leads.create` preserves phone uniqueness across
any sequence of calls. -/
theorem leads_create_idempotent_per_phone :
    (∀ (db : Db) (input : LeadInput) (ctx : Option Nat) (l : Lead),
      findLeadByPhone db input.phone = some l →
      leadsCreate input ctx db =
        (db, { id := l.id, success := true, existed := true })) ∧
    (∀ (db : Db) (input : LeadInput) (ctx : Option Nat),
      AtMostOnePerPhone db → AtMostOnePerPhone (leadsCreate input ctx db).1) ∧
    (∀ (reqs : List (LeadInput × Option Nat)) (db : Db),
      AtMostOnePerPhone db → AtMostOnePerPhone (runCreates reqs db)) := by
  have hfound : ∀ (db : Db) (input : LeadInput) (ctx : Option Nat) (l : Lead),
      findLeadByPhone db input.phone = some l →
      leadsCreate input ctx db =
        (db, { id := l.id, success := true, existed := true }) := by
    intro db input ctx l h
    unfold leadsCreate
    rw [h]
  have hpres : ∀ (db : Db) (input : LeadInput) (ctx : Option Nat),
      AtMostOnePerPhone db → AtMostOnePerPhone (leadsCreate input ctx db).1 := by
    intro db input ctx h
    unfold leadsCreate
    rcases hf : findLeadByPhone db input.phone with _ | l
    · dsimp only
      unfold AtMostOnePerPhone at h ⊢
      dsimp only
      rw [List.pairwise_append]
      refine ⟨h, by simp, ?_⟩
      intro a ha b hb
      simp only [List.mem_singleton] at hb
      subst hb
      unfold findLeadByPhone at hf
      have hnone := List.find?_eq_none.mp hf a ha
      simpa using hnone
    · exact h
  refine ⟨hfound, hpres, ?_⟩
  intro reqs
  induction reqs with
  | nil => intro db h; exact h
  | cons r t ih =>
    intro db h
    unfold runCreates
    simp only [List.foldl_cons]
    exact ih _ (hpres db r.1 r.2 h)

/-- An empty database state. -/
def emptyDb : Db :=
  { leads := [], pipelines := [], pipelineStages := [], conversations := [],
    chatMessages := [], whatsappNumbers := [], campaigns := [],
    campaignRecipients := [], nextLeadId := 1, nextConvId := 1,
    nextMsgId := 1 }

/-- A lead row used in concrete witnesses. -/
def leadW : Lead :=
  { id := 1, name := "Ana", phone := "+595981000000", country := "Paraguay",
    pipelineStageId := none, kanbanOrder := 0, source := none,
    whatsappNumberId := none, assignedToId := none, email := none,
    notes := none, value := none, commission := none }

/-- A `leads.create` input used in concrete witnesses. -/
def inputW : LeadInput :=
  { name := "Ana", phone := "+595981000000", email := none,
    country := "Paraguay", source := none, notes := none,
    pipelineStageId := none, value := none }

/-- Witness for `leads_create_idempotent_per_phone`: creating against a state
that already holds the phone returns the existing id and changes nothing. -/
theorem leads_create_idempotent_per_phone_witness :
    leadsCreate inputW none { emptyDb with leads := [leadW] } =
      ({ emptyDb with leads := [leadW] },
       { id := leadW.id, success := true, existed := true }) :=
  leads_create_idempotent_per_phone.1 { emptyDb with leads := [leadW] }
    inputW none leadW (by decide)

/-- C3 counterexample: `leads.create` on a fresh phone number inserts a lead
but no conversation row — the conversations table is untouched. -/
theorem leads_create_conversation_cex :
    findLeadByPhone emptyDb inputW.phone = none ∧
    (leadsCreate inputW none emptyDb).1.leads.length = 1 ∧
    (leadsCreate inputW none emptyDb).1.conversations = [] := by
  refine ⟨by decide, by decide, by decide⟩

/-- C3 (amended): for an input phone not present among the leads,
`leads.create` appends exactly one new lead row carrying that phone and
creates no conversation row (conversations are created elsewhere: by the
inbound message handler or the chat router). -/
theorem leads_create_new_lead_no_conversation (db : Db) (input : LeadInput)
    (ctx : Option Nat) (h : findLeadByPhone db input.phone = none) :
    (∃ nl : Lead, (leadsCreate input ctx db).1.leads = db.leads ++ [nl] ∧
      nl.phone = input.phone) ∧
    (leadsCreate input ctx db).1.conversations = db.conversations := by
  unfold leadsCreate
  rw [h]
  exact ⟨⟨_, rfl, rfl⟩, rfl⟩

/-- Witness for `leads_create_new_lead_no_conversation` on the empty state. -/
theorem leads_create_new_lead_no_conversation_witness :
    (∃ nl : Lead, (leadsCreate inputW none emptyDb).1.leads = [] ++ [nl] ∧
      nl.phone = inputW.phone) ∧
    (leadsCreate inputW none emptyDb).1.conversations = [] :=
  leads_create_new_lead_no_conversation emptyDb inputW none (by decide)

/-- The recipient-uniqueness invariant backed by the `uq_campaign_lead`
unique key (src/unnamed/part_012): no two recipient rows share a
(campaignId, leadId) pair. -/
def AtMostOncePerPair (db : Db) : Prop :=
  db.campaignRecipients.Pairwise
    (fun a b => ¬(a.campaignId = b.campaignId ∧ a.leadId = b.leadId))

theorem insertRecipients_frame (cid : Nat) (err : Nat → Option String) :
    ∀ (aud : List Lead) (acc : Nat) (db : Db),
    ∃ ext : List CampaignRecipient,
      (insertRecipients cid err aud acc db).2.campaignRecipients =
        db.campaignRecipients ++ ext ∧
      (insertRecipients cid err aud acc db).2.campaigns = db.campaigns := by
  intro aud
  induction aud with
  | nil =>
    intro acc db
    exact ⟨[], by simp [insertRecipients], rfl⟩
  | cons l rest ih =>
    intro acc db
    unfold insertRecipients
    rcases he : err l.id with _ | e
    · dsimp only
      by_cases hp : db.campaignRecipients.any (fun r =>
          r.campaignId == cid && r.leadId == l.id)
      · simpa [hp] using ih acc db
      · simp only [hp, Bool.false_eq_true, if_false]
        rcases ih (acc + 1)
          { db with campaignRecipients := db.campaignRecipients ++
              [{ campaignId := cid, leadId := l.id, status := "pending" }] }
          with ⟨ext2, hrec, hcamp⟩
        refine ⟨{ campaignId := cid, leadId := l.id, status := "pending" } :: ext2, ?_, by simpa using hcamp⟩
        simpa using hrec
    · dsimp only
      by_cases hd : isDupError e
      · simpa [hd] using ih acc db
      · simp [hd]

theorem insertRecipients_preserves (cid : Nat) (err : Nat → Option String) :
    ∀ (aud : List Lead) (acc : Nat) (db : Db),
    AtMostOncePerPair db →
    AtMostOncePerPair (insertRecipients cid err aud acc db).2 := by
  intro aud
  induction aud with
  | nil =>
    intro acc db h
    simpa [insertRecipients] using h
  | cons l rest ih =>
    intro acc db h
    unfold insertRecipients
    rcases he : err l.id with _ | e
    · dsimp only
      by_cases hp : db.campaignRecipients.any (fun r =>
          r.campaignId == cid && r.leadId == l.id)
      · simpa [hp] using ih acc db h
      · simp only [hp, Bool.false_eq_true, if_false]
        apply ih
        unfold AtMostOncePerPair at h ⊢
        dsimp only
        rw [List.pairwise_append]
        refine ⟨h, by simp, ?_⟩
        intro a ha b hb
        simp only [List.mem_singleton] at hb
        subst hb
        rintro ⟨hc, hl⟩
        have hc2 : a.campaignId = cid := by simpa using hc
        have hl2 : a.leadId = l.id := by simpa using hl
        exact hp (List.any_eq_true.mpr ⟨a, ha, by simp [hc2, hl2]⟩)
    · dsimp only
      by_cases hd : isDupError e
      · simpa [hd] using ih acc db h
      · simpa [hd] using h

theorem insertRecipients_ok (cid : Nat) :
    ∀ (aud : List Lead) (acc : Nat) (db : Db),
    ∃ n, (insertRecipients cid (fun _ => none) aud acc db).1 =
      Except.ok n := by
  intro aud
  induction aud with
  | nil =>
    intro acc db
    exact ⟨acc, by simp [insertRecipients]⟩
  | cons l rest ih =>
    intro acc db
    unfold insertRecipients
    dsimp only
    by_cases hp : db.campaignRecipients.any (fun r =>
        r.campaignId == cid && r.leadId == l.id)
    · simpa [hp] using ih acc db
    · simp only [hp, Bool.false_eq_true, if_false]
      apply ih

theorem insertRecipients_error (cid : Nat) (err : Nat → Option String)
    (e : String) (hdup : isDupError e = false) :
    ∀ (pre : List Lead) (lf : Lead) (post : List Lead) (acc : Nat) (db : Db),
    (∀ l ∈ pre, err l.id = none) → err lf.id = some e →
    (insertRecipients cid err (pre ++ lf :: post) acc db).1 =
      Except.error e ∧
    (∀ l ∈ pre,
      ∃ r ∈ (insertRecipients cid err (pre ++ lf :: post) acc db).2.campaignRecipients,
        r.campaignId = cid ∧ r.leadId = l.id) ∧
    (insertRecipients cid err (pre ++ lf :: post) acc db).2.campaigns =
      db.campaigns := by
  intro pre
  induction pre with
  | nil =>
    intro lf post acc db _ hlf
    simp only [List.nil_append]
    unfold insertRecipients
    rw [hlf]
    simp [hdup]
  | cons l pre ih =>
    intro lf post acc db hpre hlf
    have hl : err l.id = none := hpre l (by simp)
    have hpre2 : ∀ x ∈ pre, err x.id = none := by
      intro x hx
      exact hpre x (by simp [hx])
    simp only [List.cons_append]
    unfold insertRecipients
    rw [hl]
    dsimp only
    by_cases hp : db.campaignRecipients.any (fun r =>
        r.campaignId == cid && r.leadId == l.id)
    · simp only [hp, if_true]
      rcases ih lf post acc db hpre2 hlf with ⟨h1, h2, h3⟩
      refine ⟨h1, ?_, h3⟩
      intro x hx
      rcases List.mem_cons.mp hx with hx | hx
      · subst hx
        rcases List.any_eq_true.mp hp with ⟨r, hr, hmatch⟩
        simp only [Bool.and_eq_true, beq_iff_eq] at hmatch
        rcases insertRecipients_frame cid err (pre ++ lf :: post) acc db
          with ⟨ext, hrec, _⟩
        exact ⟨r, by rw [hrec]; exact List.mem_append_left _ hr,
          hmatch.1, hmatch.2⟩
      · exact h2 x hx
    · simp only [hp, Bool.false_eq_true, if_false]
      have hrow : ({ db with campaignRecipients := db.campaignRecipients ++
          [{ campaignId := cid, leadId := l.id, status := "pending" }] } :
            Db).campaignRecipients =
          db.campaignRecipients ++
            [{ campaignId := cid, leadId := l.id, status := "pending" }] := rfl
      rcases ih lf post (acc + 1)
        { db with campaignRecipients := db.campaignRecipients ++
            [{ campaignId := cid, leadId := l.id, status := "pending" }] }
        hpre2 hlf with ⟨h1, h2, h3⟩
      refine ⟨h1, ?_, by simpa using h3⟩
      intro x hx
      rcases List.mem_cons.mp hx with hx | hx
      · subst hx
        rcases insertRecipients_frame cid err (pre ++ lf :: post) (acc + 1)
          { db with campaignRecipients := db.campaignRecipients ++
              [{ campaignId := cid, leadId := x.id, status := "pending" }] }
          with ⟨ext, hrec, _⟩
        refine ⟨{ campaignId := cid, leadId := x.id, status := "pending" },
          ?_, rfl, rfl⟩
        rw [hrec]
        exact List.mem_append_left _ (by simp)
      · exact h2 x hx

instance : DecidablePred AtMostOncePerPair := fun db =>
  List.instDecidablePairwise db.campaignRecipients

/-- C6: `campaigns.launch` keeps (campaignId, leadId) pairs unique among the
recipients — a duplicate-entry insert is skipped without a second row — and,
absent injected insert failures, duplicates do not abort the launch: a draft
campaign with a nonempty audience launches successfully. -/
theorem campaigns_launch_recipient_unique :
    (∀ (db : Db) (cid : Nat) (err : Nat → Option String),
      AtMostOncePerPair db →
      AtMostOncePerPair (campaignsLaunch cid err db).2) ∧
    (∀ (db : Db) (cid : Nat) (camp : Campaign),
      db.campaigns.find? (fun c => c.id == cid) = some camp →
      camp.status = "draft" → audienceOf db camp ≠ [] →
      ∃ n, (campaignsLaunch cid (fun _ => none) db).1 =
        Except.ok { success := true,
                    recipientsCount := (audienceOf db camp).length,
                    alreadyLaunched := false, inserted := some n }) := by
  constructor
  · intro db cid err h
    unfold campaignsLaunch
    rcases hfind : db.campaigns.find? (fun c => c.id == cid) with _ | camp
    · rw [hfind]
      exact h
    · rw [hfind]
      dsimp only
      by_cases h1 : camp.status = "scheduled" ∨ camp.status = "running"
      · simpa [h1] using h
      · simp only [h1, if_false]
        by_cases h2 : camp.status ≠ "draft"
        · simpa [h2] using h
        · simp only [h2, if_false]
          by_cases h3 : (audienceOf db camp).isEmpty
          · simpa [h3] using h
          · simp only [h3, Bool.false_eq_true, if_false]
            rcases hloop : insertRecipients cid err (audienceOf db camp) 0 db
              with ⟨res, db1⟩
            have hinv1 : AtMostOncePerPair db1 := by
              have hx := insertRecipients_preserves cid err
                (audienceOf db camp) 0 db h
              rwa [hloop] at hx
            rcases res with e | n
            · exact hinv1
            · exact hinv1
  · intro db cid camp hfind hdraft hne
    unfold campaignsLaunch
    rw [hfind]
    dsimp only
    have hc1 : ¬("draft" = "scheduled" ∨ "draft" = "running") := by decide
    have hc2 : ¬(("draft" : String) ≠ "draft") := by decide
    have hne2 : (audienceOf db camp).isEmpty = false := by
      rcases haud : audienceOf db camp with _ | ⟨a, t⟩
      · exact absurd haud hne
      · rfl
    simp only [hdraft, hc1, if_false, hc2, hne2, Bool.false_eq_true]
    rcases hloop : insertRecipients cid (fun _ => none)
      (audienceOf db camp) 0 db with ⟨res, db1⟩
    rcases insertRecipients_ok cid (audienceOf db camp) 0 db with ⟨n, hok⟩
    rw [hloop] at hok
    dsimp only at hok
    subst hok
    exact ⟨n, rfl⟩

/-- C7: the recipient loop of `campaigns.launch` is not atomic.  When one
lead's insert fails with a non-duplicate error, the launch rethrows that
error, the recipient rows already inserted for the earlier leads remain, and
the campaign's status stays `"draft"`. -/
theorem campaigns_launch_not_atomic
    (db : Db) (cid : Nat) (err : Nat → Option String) (camp : Campaign)
    (e : String) (pre : List Lead) (lf : Lead) (post : List Lead)
    (hfind : db.campaigns.find? (fun c => c.id == cid) = some camp)
    (hdraft : camp.status = "draft")
    (haud : audienceOf db camp = pre ++ lf :: post)
    (hpre : ∀ l ∈ pre, err l.id = none)
    (hlf : err lf.id = some e)
    (hnotdup : isDupError e = false) :
    (campaignsLaunch cid err db).1 = Except.error e ∧
    (∀ l ∈ pre, ∃ r ∈ (campaignsLaunch cid err db).2.campaignRecipients,
      r.campaignId = cid ∧ r.leadId = l.id) ∧
    campaignStatus (campaignsLaunch cid err db).2 cid = some "draft" := by
  have hmain := insertRecipients_error cid err e hnotdup pre lf post 0 db
    hpre hlf
  rcases hmain with ⟨h1, h2, h3⟩
  rw [← haud] at h1 h2 h3
  unfold campaignsLaunch
  rw [hfind]
  dsimp only
  have hc1 : ¬("draft" = "scheduled" ∨ "draft" = "running") := by decide
  have hc2 : ¬(("draft" : String) ≠ "draft") := by decide
  have hne2 : (audienceOf db camp).isEmpty = false := by
    rw [haud]
    rcases pre with _ | ⟨a, t⟩ <;> rfl
  simp only [hdraft, hc1, if_false, hc2, hne2, Bool.false_eq_true]
  rcases hloop : insertRecipients cid err (audienceOf db camp) 0 db
    with ⟨res, db1⟩
  rw [hloop] at h1 h2 h3
  dsimp only at h1 h2 h3
  subst h1
  refine ⟨rfl, h2, ?_⟩
  unfold campaignStatus
  rw [h3, hfind]
  simp [hdraft]

/-- A draft campaign with no audience filter, used in concrete witnesses. -/
def campW : Campaign :=
  { id := 1, name := "camp", status := "draft", totalRecipients := 0,
    audiencePipelineStageId := none }

/-- A second lead used in concrete witnesses. -/
def lead2W : Lead :=
  { leadW with id := 2, phone := "+59521000000" }

/-- A database holding two leads, a draft campaign, and one recipient row
already present for the first lead. -/
def recipW : CampaignRecipient :=
  { campaignId := 1, leadId := 1, status := "pending" }

def dbW : Db :=
  { emptyDb with
      leads := [leadW, lead2W],
      campaigns := [campW],
      campaignRecipients := [recipW] }

/-- The insert-error oracle used in the non-atomicity witness: the second
lead's insert throws a connection error. -/
def errW : Nat → Option String :=
  fun lid => if lid = 2 then some "boom" else none

/-- Witness for `campaigns_launch_recipient_unique`: launching over an
audience that includes an already-recorded recipient keeps the pair unique
and still succeeds. -/
theorem campaigns_launch_recipient_unique_witness :
    AtMostOncePerPair (campaignsLaunch 1 (fun _ => none) dbW).2 ∧
    (∃ n, (campaignsLaunch 1 (fun _ => none) dbW).1 =
      Except.ok { success := true,
                  recipientsCount := (audienceOf dbW campW).length,
                  alreadyLaunched := false, inserted := some n }) :=
  ⟨campaigns_launch_recipient_unique.1 dbW 1 (fun _ => none) (by decide),
   campaigns_launch_recipient_unique.2 dbW 1 campW (by decide) rfl
     (by decide)⟩

/-- Witness for `campaigns_launch_not_atomic`: the first lead is processed
(already present, duplicate skipped), the second lead's insert fails, the
error propagates, and the campaign stays in draft. -/
theorem campaigns_launch_not_atomic_witness :
    (campaignsLaunch 1 errW dbW).1 = Except.error "boom" ∧
    (∀ l ∈ [leadW], ∃ r ∈ (campaignsLaunch 1 errW dbW).2.campaignRecipients,
      r.campaignId = 1 ∧ r.leadId = l.id) ∧
    campaignStatus (campaignsLaunch 1 errW dbW).2 1 = some "draft" :=
  campaigns_launch_not_atomic dbW 1 errW campW "boom" [leadW] lead2W []
    (by decide) rfl (by decide) (by decide) rfl (by decide)

/-- The lead id `handleIncomingMessage` settles on for phone `p`: the first
matching lead's id, or the fresh AUTO_INCREMENT id when the lead is created. -/
def inboundLeadId (db : Db) (p : String) : Nat :=
  match findLeadByPhone db p with
  | some l => l.id
  | none => db.nextLeadId

/-- C1: for every accepted inbound message (given that a default pipeline
with a first stage exists), the handler performs exactly the reconciliation
sequence: find-or-create the lead by the phone derived from the JID — a
created lead sits in the default pipeline's first stage with kanban order one
past the stage's current maximum —, find-or-create the conversation for the
(lead, channel-identity) pair, increment its unread counter (a created
conversation starts at 1), and append exactly one inbound message row to that
conversation. -/
theorem inbound_message_reconciliation
    (userId : Nat) (m : WAMessage) (db : Db)
    (hacc : acceptsMessage m = true)
    (hpipe : ∃ sid, defaultPipelineFirstStage db = some sid) :
    ((∀ l, findLeadByPhone db (phoneOfMessage m) = some l →
       (handleIncomingMessage userId m db).leads = db.leads) ∧
     (findLeadByPhone db (phoneOfMessage m) = none →
       ∃ nl : Lead,
         (handleIncomingMessage userId m db).leads = db.leads ++ [nl] ∧
         nl.phone = phoneOfMessage m ∧
         ∃ sid, defaultPipelineFirstStage db = some sid ∧
           nl.pipelineStageId = some sid ∧
           nl.kanbanOrder = maxKanbanInStage db sid + 1)) ∧
    ((∀ c, findConv db (inboundLeadId db (phoneOfMessage m)) userId = some c →
       (handleIncomingMessage userId m db).conversations =
         db.conversations.map (bumpUnread c.id)) ∧
     (findConv db (inboundLeadId db (phoneOfMessage m)) userId = none →
       ∃ nc : Conversation,
         (handleIncomingMessage userId m db).conversations =
           db.conversations ++ [nc] ∧
         nc.leadId = some (inboundLeadId db (phoneOfMessage m)) ∧
         nc.whatsappNumberId = some userId ∧ nc.channel = "whatsapp" ∧
         nc.unreadCount = 1)) ∧
    (∃ msg : ChatMessage,
      (handleIncomingMessage userId m db).chatMessages =
        db.chatMessages ++ [msg] ∧
      msg.direction = "inbound" ∧ msg.content = textOfMessage m ∧
      msg.whatsappMessageId = m.key.id ∧
      msg.conversationId =
        (match findConv db (inboundLeadId db (phoneOfMessage m)) userId with
         | some c => c.id
         | none => db.nextConvId)) := by
  rcases hpipe with ⟨sid, hsid⟩
  unfold handleIncomingMessage
  simp only [hacc, Bool.not_true, Bool.false_eq_true, if_false]
  rcases hlead : findLeadByPhone db (phoneOfMessage m) with _ | l
  · -- lead absent: created with the default stage and next kanban order
    simp only [hlead, hsid, inboundLeadId]
    unfold findConv
    try dsimp only
    rcases hconv : db.conversations.find? (fun c =>
        c.leadId == some db.nextLeadId && c.whatsappNumberId == some userId &&
        c.channel == "whatsapp") with _ | c
    · try simp only [hconv]
      refine ⟨⟨?_, ?_⟩, ⟨?_, ?_⟩, ?_⟩
      · intro l hl
        cases hl
      · intro _
        refine ⟨_, rfl, rfl, sid, rfl, ?_, ?_⟩ <;>
          simp [inboundNewLead, hsid]
      · intro c hc
        cases hc
      · intro _
        exact ⟨_, rfl, rfl, rfl, rfl, rfl⟩
      · exact ⟨_, rfl, rfl, rfl, rfl, rfl⟩
    · try simp only [hconv]
      refine ⟨⟨?_, ?_⟩, ⟨?_, ?_⟩, ?_⟩
      · intro l hl
        cases hl
      · intro _
        refine ⟨_, rfl, rfl, sid, rfl, ?_, ?_⟩ <;>
          simp [inboundNewLead, hsid]
      · intro c2 hc2
        cases hc2
        trivial
      · intro h
        cases h
      · exact ⟨_, rfl, rfl, rfl, rfl, rfl⟩
  · -- lead present: leads untouched (timestamps not modelled)
    simp only [hlead, inboundLeadId]
    unfold findConv
    try dsimp only
    rcases hconv : db.conversations.find? (fun c =>
        c.leadId == some l.id && c.whatsappNumberId == some userId &&
        c.channel == "whatsapp") with _ | c
    · try simp only [hconv]
      refine ⟨⟨?_, ?_⟩, ⟨?_, ?_⟩, ?_⟩
      · intro l2 hl2
        cases hl2
        trivial
      · intro h
        cases h
      · intro c hc
        cases hc
      · intro _
        exact ⟨_, rfl, rfl, rfl, rfl, rfl⟩
      · exact ⟨_, rfl, rfl, rfl, rfl, rfl⟩
    · try simp only [hconv]
      refine ⟨⟨?_, ?_⟩, ⟨?_, ?_⟩, ?_⟩
      · intro l2 hl2
        cases hl2
        trivial
      · intro h
        cases h
      · intro c2 hc2
        cases hc2
        trivial
      · intro h
        cases h
      · exact ⟨_, rfl, rfl, rfl, rfl, rfl⟩

/-- The inbound message used in concrete witnesses. -/
def msgW : WAMessage :=
  { key := { remoteJid := some "595981@s.whatsapp.net", fromMe := false, id := some "wamid1" },
    pushName := some "Ana", conversationText := some "hola",
    extendedText := none, imageCaption := none }

/-- A database with a default pipeline and one stage, used in witnesses. -/
def dbMsgW : Db :=
  { emptyDb with
      pipelines := [{ id := 1, isDefault := true }],
      pipelineStages := [{ id := 10, pipelineId := 1, stageOrder := 1 }] }

/-- Witness for `inbound_message_reconciliation`: a first message from a new
phone creates the lead in the default pipeline's first stage with kanban
order 1. -/
theorem inbound_message_reconciliation_witness :
    ∃ nl : Lead,
      (handleIncomingMessage 7 msgW dbMsgW).leads = dbMsgW.leads ++ [nl] ∧
      nl.phone = phoneOfMessage msgW ∧
      ∃ sid, defaultPipelineFirstStage dbMsgW = some sid ∧
        nl.pipelineStageId = some sid ∧
        nl.kanbanOrder = maxKanbanInStage dbMsgW sid + 1 :=
  (inbound_message_reconciliation 7 msgW dbMsgW (by decide)
    ⟨10, by decide⟩).1.2 (by decide)

theorem bumpUnread_id (cid : Nat) (x : Conversation) :
    (bumpUnread cid x).id = x.id := by
  unfold bumpUnread
  split_ifs <;> rfl

theorem find?_map_bumpUnread (p : Conversation → Bool)
    (hp : ∀ x : Conversation,
      p { x with unreadCount := x.unreadCount + 1 } = p x)
    (cid : Nat) (l : List Conversation) :
    (l.map (bumpUnread cid)).find? p = (l.find? p).map (bumpUnread cid) := by
  induction l with
  | nil => rfl
  | cons c t ih =>
    have hpc : p (bumpUnread cid c) = p c := by
      unfold bumpUnread
      split_ifs with h
      · exact hp c
      · rfl
    simp only [List.map_cons]
    by_cases h : p c = true
    · rw [List.find?_cons_of_pos _ (by rw [hpc]; exact h),
        List.find?_cons_of_pos _ h]
      rfl
    · rw [List.find?_cons_of_neg _ (by rw [hpc]; exact h),
        List.find?_cons_of_neg _ h]
      exact ih

/-- The conversation id `handleIncomingMessage` settles on: the id of the
first conversation matching the (lead, channel-identity) pair, or the fresh
AUTO_INCREMENT id when the conversation is created. -/
def inboundConvId (db : Db) (userId : Nat) (p : String) : Nat :=
  match findConv db (inboundLeadId db p) userId with
  | some c => c.id
  | none => db.nextConvId

theorem unreadOf_after_bump (db : Db) (cid : Nat)
    (hex : ∃ c ∈ db.conversations, c.id = cid) :
    unreadOf { db with conversations := db.conversations.map (bumpUnread cid) }
      cid = unreadOf db cid + 1 := by
  unfold unreadOf
  dsimp only
  rw [find?_map_bumpUnread (fun c => c.id == cid) (fun x => rfl) cid]
  rcases hf : db.conversations.find? (fun c => c.id == cid) with _ | c0
  · exfalso
    rcases hex with ⟨c, hc, hid⟩
    have hnone := List.find?_eq_none.mp hf c hc
    simp [hid] at hnone
  · have hid : c0.id = cid := by
      have hsome := List.find?_some hf
      simpa using hsome
    simp [hf, bumpUnread, hid]

theorem handle_run_found_found (userId : Nat) (m : WAMessage) (db : Db)
    (l : Lead) (c : Conversation)
    (hacc : acceptsMessage m = true)
    (hl : findLeadByPhone db (phoneOfMessage m) = some l)
    (hc : findConv db l.id userId = some c) :
    handleIncomingMessage userId m db =
      { db with
          conversations := db.conversations.map (bumpUnread c.id),
          chatMessages := db.chatMessages ++
            [inboundNewMessage { db with
               conversations := db.conversations.map (bumpUnread c.id) }
               userId c.id m],
          nextMsgId := db.nextMsgId + 1 } := by
  unfold handleIncomingMessage
  simp only [hacc, Bool.not_true, Bool.false_eq_true, if_false, hl, hc]

theorem handle_run_found_new (userId : Nat) (m : WAMessage) (db : Db)
    (l : Lead)
    (hacc : acceptsMessage m = true)
    (hl : findLeadByPhone db (phoneOfMessage m) = some l)
    (hc : findConv db l.id userId = none) :
    handleIncomingMessage userId m db =
      { db with
          conversations := db.conversations ++
            [inboundNewConv db userId l.id (phoneOfMessage m)
              (jsOrStr m.pushName "Unknown")],
          nextConvId := db.nextConvId + 1,
          chatMessages := db.chatMessages ++
            [inboundNewMessage { db with
               conversations := db.conversations ++
                 [inboundNewConv db userId l.id (phoneOfMessage m)
                   (jsOrStr m.pushName "Unknown")],
               nextConvId := db.nextConvId + 1 }
               userId db.nextConvId m],
          nextMsgId := db.nextMsgId + 1 } := by
  unfold handleIncomingMessage
  simp only [hacc, Bool.not_true, Bool.false_eq_true, if_false, hl, hc]

theorem handle_run_new_found (userId : Nat) (m : WAMessage) (db : Db)
    (c : Conversation)
    (hacc : acceptsMessage m = true)
    (hl : findLeadByPhone db (phoneOfMessage m) = none)
    (hc : findConv { db with
        leads := db.leads ++ [inboundNewLead db (jsOrStr m.pushName "Unknown")
          (phoneOfMessage m)],
        nextLeadId := db.nextLeadId + 1 } db.nextLeadId userId = some c) :
    handleIncomingMessage userId m db =
      { db with
          leads := db.leads ++ [inboundNewLead db
            (jsOrStr m.pushName "Unknown") (phoneOfMessage m)],
          nextLeadId := db.nextLeadId + 1,
          conversations := db.conversations.map (bumpUnread c.id),
          chatMessages := db.chatMessages ++
            [inboundNewMessage { db with
               leads := db.leads ++ [inboundNewLead db
                 (jsOrStr m.pushName "Unknown") (phoneOfMessage m)],
               nextLeadId := db.nextLeadId + 1,
               conversations := db.conversations.map (bumpUnread c.id) }
               userId c.id m],
          nextMsgId := db.nextMsgId + 1 } := by
  unfold handleIncomingMessage
  simp only [hacc, Bool.not_true, Bool.false_eq_true, if_false, hl, hc]

theorem handle_run_new_new (userId : Nat) (m : WAMessage) (db : Db)
    (hacc : acceptsMessage m = true)
    (hl : findLeadByPhone db (phoneOfMessage m) = none)
    (hc : findConv { db with
        leads := db.leads ++ [inboundNewLead db (jsOrStr m.pushName "Unknown")
          (phoneOfMessage m)],
        nextLeadId := db.nextLeadId + 1 } db.nextLeadId userId = none) :
    handleIncomingMessage userId m db =
      { db with
          leads := db.leads ++ [inboundNewLead db
            (jsOrStr m.pushName "Unknown") (phoneOfMessage m)],
          nextLeadId := db.nextLeadId + 1,
          conversations := db.conversations ++
            [inboundNewConv { db with
               leads := db.leads ++ [inboundNewLead db
                 (jsOrStr m.pushName "Unknown") (phoneOfMessage m)],
               nextLeadId := db.nextLeadId + 1 }
               userId db.nextLeadId (phoneOfMessage m)
               (jsOrStr m.pushName "Unknown")],
          nextConvId := db.nextConvId + 1,
          chatMessages := db.chatMessages ++
            [inboundNewMessage { db with
               leads := db.leads ++ [inboundNewLead db
                 (jsOrStr m.pushName "Unknown") (phoneOfMessage m)],
               nextLeadId := db.nextLeadId + 1,
               conversations := db.conversations ++
                 [inboundNewConv { db with
                    leads := db.leads ++ [inboundNewLead db
                      (jsOrStr m.pushName "Unknown") (phoneOfMessage m)],
                    nextLeadId := db.nextLeadId + 1 }
                    userId db.nextLeadId (phoneOfMessage m)
                    (jsOrStr m.pushName "Unknown")],
               nextConvId := db.nextConvId + 1 }
               userId db.nextConvId m],
          nextMsgId := db.nextMsgId + 1 } := by
  unfold handleIncomingMessage
  simp only [hacc, Bool.not_true, Bool.false_eq_true, if_false, hl, hc]

theorem find?_id_fresh (db : Db)
    (hwf : ∀ c ∈ db.conversations, c.id < db.nextConvId) :
    db.conversations.find? (fun c => c.id == db.nextConvId) = none :=
  List.find?_eq_none.mpr (fun x hx => by
    simpa using Nat.ne_of_lt (hwf x hx))

/-- C5: delivering the same accepted inbound event twice creates at most one
lead — the phone lookup makes the lead step idempotent, and the second pass
inserts no lead at all — but appends a second message row (no deduplication
by message id or content) and increments the conversation's unread counter
both times. -/
theorem duplicate_delivery_not_deduplicated
    (userId : Nat) (m : WAMessage) (db : Db)
    (hacc : acceptsMessage m = true)
    (hwf : ∀ c ∈ db.conversations, c.id < db.nextConvId) :
    (handleIncomingMessage userId m
        (handleIncomingMessage userId m db)).leads.length ≤
      db.leads.length + 1 ∧
    (handleIncomingMessage userId m
        (handleIncomingMessage userId m db)).leads =
      (handleIncomingMessage userId m db).leads ∧
    (handleIncomingMessage userId m
        (handleIncomingMessage userId m db)).chatMessages.length =
      db.chatMessages.length + 2 ∧
    unreadOf (handleIncomingMessage userId m
        (handleIncomingMessage userId m db))
        (inboundConvId db userId (phoneOfMessage m)) =
      unreadOf db (inboundConvId db userId (phoneOfMessage m)) + 2 := by
  rcases hlead : findLeadByPhone db (phoneOfMessage m) with _ | l
  · -- first delivery creates the lead
    rcases hconv : findConv { db with
        leads := db.leads ++ [inboundNewLead db (jsOrStr m.pushName "Unknown")
          (phoneOfMessage m)],
        nextLeadId := db.nextLeadId + 1 } db.nextLeadId userId with _ | c
    · -- first delivery also creates the conversation
      have hconv0 : findConv db db.nextLeadId userId = none := by
        unfold findConv at hconv ⊢
        exact hconv
      have h1 := handle_run_new_new userId m db hacc hlead hconv
      have hl2 : findLeadByPhone (handleIncomingMessage userId m db)
          (phoneOfMessage m) =
          some (inboundNewLead db (jsOrStr m.pushName "Unknown")
            (phoneOfMessage m)) := by
        rw [h1]
        unfold findLeadByPhone at hlead ⊢
        dsimp only
        rw [List.find?_append, hlead]
        simp [inboundNewLead]
      have hc2 : findConv (handleIncomingMessage userId m db)
          (inboundNewLead db (jsOrStr m.pushName "Unknown")
            (phoneOfMessage m)).id userId =
          some (inboundNewConv { db with
            leads := db.leads ++ [inboundNewLead db
              (jsOrStr m.pushName "Unknown") (phoneOfMessage m)],
            nextLeadId := db.nextLeadId + 1 }
            userId db.nextLeadId (phoneOfMessage m)
            (jsOrStr m.pushName "Unknown")) := by
        rw [h1]
        unfold findConv at hconv0 ⊢
        dsimp only
        rw [List.find?_append]
        rw [show (inboundNewLead db (jsOrStr m.pushName "Unknown")
          (phoneOfMessage m)).id = db.nextLeadId from rfl]
        rw [hconv0]
        simp [inboundNewConv]
      have h2 := handle_run_found_found userId m
        (handleIncomingMessage userId m db) _ _ hacc hl2 hc2
      rw [h2, h1]
      refine ⟨?_, ?_, ?_, ?_⟩
      · simp
      · rfl
      · simp
      · simp only [inboundConvId, inboundLeadId, hlead, hconv0]
        unfold unreadOf
        dsimp only
        rw [show (inboundNewConv { db with
            leads := db.leads ++ [inboundNewLead db
              (jsOrStr m.pushName "Unknown") (phoneOfMessage m)],
            nextLeadId := db.nextLeadId + 1 }
            userId db.nextLeadId (phoneOfMessage m)
            (jsOrStr m.pushName "Unknown")).id = db.nextConvId from rfl]
        rw [find?_map_bumpUnread (fun c => c.id == db.nextConvId)
          (fun x => rfl) db.nextConvId]
        rw [List.find?_append, find?_id_fresh db hwf]
        simp [inboundNewConv, bumpUnread]
    · -- first delivery finds an existing conversation for the new lead
      have hconv0 : findConv db db.nextLeadId userId = some c := by
        unfold findConv at hconv ⊢
        exact hconv
      have h1 := handle_run_new_found userId m db c hacc hlead hconv
      have hl2 : findLeadByPhone (handleIncomingMessage userId m db)
          (phoneOfMessage m) =
          some (inboundNewLead db (jsOrStr m.pushName "Unknown")
            (phoneOfMessage m)) := by
        rw [h1]
        unfold findLeadByPhone at hlead ⊢
        dsimp only
        rw [List.find?_append, hlead]
        simp [inboundNewLead]
      have hc2 : findConv (handleIncomingMessage userId m db)
          (inboundNewLead db (jsOrStr m.pushName "Unknown")
            (phoneOfMessage m)).id userId = some (bumpUnread c.id c) := by
        rw [h1]
        unfold findConv at hconv0 ⊢
        dsimp only
        rw [show (inboundNewLead db (jsOrStr m.pushName "Unknown")
          (phoneOfMessage m)).id = db.nextLeadId from rfl]
        rw [find?_map_bumpUnread (fun x => x.leadId == some db.nextLeadId &&
          x.whatsappNumberId == some userId && x.channel == "whatsapp")
          (fun x => rfl) c.id, hconv0]
        rfl
      have h2 := handle_run_found_found userId m
        (handleIncomingMessage userId m db) _ _ hacc hl2 hc2
      rw [h2, h1]
      have hcmem : ∃ c0 ∈ db.conversations, c0.id = c.id := by
        refine ⟨c, ?_, rfl⟩
        have := List.mem_of_find?_eq_some hconv0
        exact this
      rcases hfid : db.conversations.find? (fun x => x.id == c.id)
        with _ | c0
      · exfalso
        rcases hcmem with ⟨c0, hc0, hid⟩
        have := List.find?_eq_none.mp hfid c0 hc0
        simp [hid] at this
      · have hc0id : c0.id = c.id := by
          have := List.find?_some hfid
          simpa using this
        refine ⟨?_, ?_, ?_, ?_⟩
        · simp
        · rfl
        · simp
        · simp only [inboundConvId, inboundLeadId, hlead, hconv0]
          unfold unreadOf
          dsimp only
          rw [show (bumpUnread c.id c).id = c.id from bumpUnread_id c.id c]
          rw [find?_map_bumpUnread (fun x => x.id == c.id)
            (fun x => rfl) c.id]
          rw [find?_map_bumpUnread (fun x => x.id == c.id)
            (fun x => rfl) c.id]
          rw [hfid]
          simp [bumpUnread, hc0id]
  · -- the lead already exists: no lead row is ever inserted
    rcases hconv : findConv db l.id userId with _ | c
    · have h1 := handle_run_found_new userId m db l hacc hlead hconv
      have hl2 : findLeadByPhone (handleIncomingMessage userId m db)
          (phoneOfMessage m) = some l := by
        rw [h1]
        unfold findLeadByPhone at hlead ⊢
        dsimp only
        exact hlead
      have hc2 : findConv (handleIncomingMessage userId m db) l.id userId =
          some (inboundNewConv db userId l.id (phoneOfMessage m)
            (jsOrStr m.pushName "Unknown")) := by
        rw [h1]
        unfold findConv at hconv ⊢
        dsimp only
        rw [List.find?_append, hconv]
        simp [inboundNewConv]
      have h2 := handle_run_found_found userId m
        (handleIncomingMessage userId m db) _ _ hacc hl2 hc2
      rw [h2, h1]
      refine ⟨?_, ?_, ?_, ?_⟩
      · simp
      · rfl
      · simp
      · simp only [inboundConvId, inboundLeadId, hlead, hconv]
        unfold unreadOf
        dsimp only
        rw [show (inboundNewConv db userId l.id (phoneOfMessage m)
          (jsOrStr m.pushName "Unknown")).id = db.nextConvId from rfl]
        rw [find?_map_bumpUnread (fun c => c.id == db.nextConvId)
          (fun x => rfl) db.nextConvId]
        rw [List.find?_append, find?_id_fresh db hwf]
        simp [inboundNewConv, bumpUnread]
    · have h1 := handle_run_found_found userId m db l c hacc hlead hconv
      have hl2 : findLeadByPhone (handleIncomingMessage userId m db)
          (phoneOfMessage m) = some l := by
        rw [h1]
        unfold findLeadByPhone at hlead ⊢
        dsimp only
        exact hlead
      have hc2 : findConv (handleIncomingMessage userId m db) l.id userId =
          some (bumpUnread c.id c) := by
        rw [h1]
        unfold findConv at hconv ⊢
        dsimp only
        rw [find?_map_bumpUnread (fun x => x.leadId == some l.id &&
          x.whatsappNumberId == some userId && x.channel == "whatsapp")
          (fun x => rfl) c.id, hconv]
        rfl
      have h2 := handle_run_found_found userId m
        (handleIncomingMessage userId m db) _ _ hacc hl2 hc2
      rw [h2, h1]
      have hcmem : ∃ c0 ∈ db.conversations, c0.id = c.id := by
        refine ⟨c, ?_, rfl⟩
        have hm := List.mem_of_find?_eq_some hconv
        exact hm
      rcases hfid : db.conversations.find? (fun x => x.id == c.id)
        with _ | c0
      · exfalso
        rcases hcmem with ⟨c0, hc0, hid⟩
        have hn := List.find?_eq_none.mp hfid c0 hc0
        simp [hid] at hn
      · have hc0id : c0.id = c.id := by
          have hs := List.find?_some hfid
          simpa using hs
        refine ⟨?_, ?_, ?_, ?_⟩
        · simp
        · rfl
        · simp
        · simp only [inboundConvId, inboundLeadId, hlead, hconv]
          unfold unreadOf
          dsimp only
          rw [show (bumpUnread c.id c).id = c.id from bumpUnread_id c.id c]
          rw [find?_map_bumpUnread (fun x => x.id == c.id)
            (fun x => rfl) c.id]
          rw [find?_map_bumpUnread (fun x => x.id == c.id)
            (fun x => rfl) c.id]
          rw [hfid]
          simp [bumpUnread, hc0id]

/-- Witness for `duplicate_delivery_not_deduplicated`: the same message
delivered twice into a fresh store yields one lead, two message rows, and an
unread counter of 2. -/
theorem duplicate_delivery_not_deduplicated_witness :
    (handleIncomingMessage 7 msgW
        (handleIncomingMessage 7 msgW dbMsgW)).leads.length ≤
      dbMsgW.leads.length + 1 ∧
    (handleIncomingMessage 7 msgW
        (handleIncomingMessage 7 msgW dbMsgW)).leads =
      (handleIncomingMessage 7 msgW dbMsgW).leads ∧
    (handleIncomingMessage 7 msgW
        (handleIncomingMessage 7 msgW dbMsgW)).chatMessages.length =
      dbMsgW.chatMessages.length + 2 ∧
    unreadOf (handleIncomingMessage 7 msgW
        (handleIncomingMessage 7 msgW dbMsgW))
        (inboundConvId dbMsgW 7 (phoneOfMessage msgW)) =
      unreadOf dbMsgW (inboundConvId dbMsgW 7 (phoneOfMessage msgW)) + 2 :=
  duplicate_delivery_not_deduplicated 7 msgW dbMsgW (by decide) (by decide)
